import Mathlib

/-
Verification of the instruction renderer (src/instructions/instruction_renderer.py)
against its natural-language specification.

Shallow embedding conventions:
- The instruction tree rooted at INSTRUCTIONS_DIR/instruction_path is modelled by
  an InstructionDir value: whether the directory exists, the plain files it holds
  directly, and its child entries in directory-listing order.
- Executing a Python artifact file is modelled by the Except value stored for it
  in DirContent: ok with the list of top-level bindings the execution produces,
  or error when execution raises.
- Machine-level module loading details (spec_from_file_location always yields a
  loader for an existing file) are collapsed into these exec fields.
- Exceptions are values of PyErr; fallible functions return Except PyErr.
- Paths in error messages are written relative to INSTRUCTIONS_DIR; the source
  prints absolute paths, the prefix carries no information for the claims.
-/

namespace InstructionRenderer

/-- Python exception kinds that the renderer can raise or propagate. -/
inductive PyErr where
  | valueError (msg : String)
  | notFound (msg : String)
  | nameError (msg : String)
  | undefinedError (msg : String)
  | typeError (msg : String)
deriving DecidableEq, Repr

/-- Caller-supplied keyword context and loaded value mappings: association
lists of variable name to text value, later bindings shadowing earlier ones as
in a Python dict built by successive insertion. -/
abbrev Ctx := List (String × String)

/-- Bindings extracted from a values artifact. -/
abbrev Bindings := List (String × String)

/-- Dict lookup for an association list where later bindings win, matching
Python dict semantics for a dict built left to right. -/
def ctxLookup (c : Ctx) (k : String) : Option String :=
  match c.reverse.find? (fun kv => kv.1 == k) with
  | some kv => some kv.2
  | none => none

/-- Embeds the merge on line 244 of instruction_renderer.py: a dict literal
that lists instruction vars first and caller context second, so caller keys
override instruction-local keys wholesale. -/
def pyDictMerge (a b : Ctx) : Ctx := a ++ b

/-- Top-level attribute of a loaded Python module: either a text constant or a
callable taking the keyword context. -/
inductive PyAttr where
  | text (s : String)
  | fn (f : Ctx → Except PyErr String)

/-- Models the Python callable() predicate on module attributes. -/
def PyAttr.isCallable : PyAttr → Bool
  | .text _ => false
  | .fn _ => true

/-- Calling a module attribute with keyword context: functions run, text is
not callable. -/
def callAttr (a : PyAttr) (ctx : Ctx) : Except PyErr String :=
  match a with
  | .fn f => f ctx
  | .text _ => .error (.typeError "str object is not callable")

/-- One piece of a parsed template: literal text or a variable reference. -/
inductive TItem where
  | lit (s : String)
  | var (name : String)
deriving DecidableEq, Repr

/-- A template is its pieces in document order. -/
abbrev Template := List TItem

/-- Models the external templating service consumed through the
render(template, context) contract, as configured on lines 18-22 of
instruction_renderer.py: undefined=StrictUndefined, so a reference to a
variable absent from the context raises instead of substituting empty text,
and autoescape=False, so text passes through unescaped. -/
def jinjaRender : Template → Ctx → Except PyErr String
  | [], _ => .ok ""
  | .lit s :: rest, c =>
    match jinjaRender rest c with
    | .ok r => .ok (s ++ r)
    | .error e => .error e
  | .var n :: rest, c =>
    match ctxLookup c n with
    | some v =>
      match jinjaRender rest c with
      | .ok r => .ok (v ++ r)
      | .error e => .error e
    | none => .error (.undefinedError (n ++ " is undefined"))

/-- Models Python str.strip(): remove leading and trailing whitespace. -/
def pyStrip (s : String) : String :=
  String.mk (((s.data.dropWhile Char.isWhitespace).reverse.dropWhile Char.isWhitespace).reverse)

/-- Models Python str.isupper() for identifier-like names: at least one cased
character and no lower-case character. Only ASCII letters are treated as
cased, which covers the binding names occurring here. -/
def pyIsUpper (s : String) : Bool :=
  s.data.any (fun c => c.isUpper) && s.data.all (fun c => !c.isLower)

/-- Models name.startswith of a single character v, line 44 and similar. -/
def startswithV (s : String) : Bool :=
  match s.data with
  | [] => false
  | c :: _ => c == 'v'

/-- Models attr_name.startswith of a single underscore, lines 72 and 183. -/
def startswithUnderscore (s : String) : Bool :=
  match s.data with
  | [] => false
  | c :: _ => c == '_'

/-- Models Python slicing name[1:] on version directory names. -/
def pyDropFirst (s : String) : String :=
  String.mk (s.data.drop 1)

/-- Digit accumulator for pyInt?. -/
def natOfDigitsAux : List Char → Nat → Option Nat
  | [], acc => some acc
  | c :: cs, acc => if c.isDigit then natOfDigitsAux cs (acc * 10 + (c.toNat - 48)) else none

/-- Nonempty all-digit character list to Nat, else none. -/
def natOfDigits? : List Char → Option Nat
  | [] => none
  | cs => natOfDigitsAux cs 0

/-- Models the Python int() builtin on version-name suffixes: an optional sign
followed by one or more ASCII digits parses to the integer; anything else
raises ValueError. Underscore digit grouping and surrounding whitespace, which
Python also accepts, do not occur in version names and are not modelled. -/
def pyInt? (s : String) : Option Int :=
  match s.data with
  | '-' :: rest => (natOfDigits? rest).map (fun n => -(n : Int))
  | '+' :: rest => (natOfDigits? rest).map (fun n => (n : Int))
  | cs => (natOfDigits? cs).map (fun n => (n : Int))

/-- Content model of one directory (the instruction directory itself or a
version subdirectory): the plain files it holds and the effect of executing
each Python artifact it may hold. -/
structure DirContent where
  files : List String := []
  valuesExec : Except PyErr Bindings := .ok []
  variablesExec : Except PyErr Bindings := .ok []
  composablesExec : Except PyErr (List (String × PyAttr)) := .ok []
  template : Template := []
  mdText : String := ""

/-- One child of the instruction directory as returned by iterdir. -/
structure Entry where
  name : String
  isDir : Bool
  content : DirContent

/-- The instruction directory INSTRUCTIONS_DIR/instruction_path: whether it
exists, its own direct content, and its children in listing order. -/
structure InstructionDir where
  present : Bool
  here : DirContent := {}
  entries : List Entry := []

/-- Embeds the filter on lines 44, 107, 157, 225, 296, 359, 409: children that
are directories and whose name starts with v. -/
def versionDirs (d : InstructionDir) : List Entry :=
  d.entries.filter (fun e => e.isDir && startswithV e.name)

/-- Looking up a named child of the instruction directory; nothing is found
under a directory that does not exist. -/
def dirLookup (d : InstructionDir) (name : String) : Option Entry :=
  if d.present then d.entries.find? (fun e => e.name == name) else none

/-- Existence of a file INSTRUCTIONS_DIR/path/vname/fname. -/
def vdirHasFile (d : InstructionDir) (vname fname : String) : Bool :=
  match dirLookup d vname with
  | some e => e.isDir && e.content.files.contains fname
  | none => false

/-- Sort key int(d.name[1:]) used by max and sort calls; raises ValueError on
a non-numeric suffix exactly as the Python int() builtin does. -/
def vKey (e : Entry) : Except PyErr Int :=
  match pyInt? (pyDropFirst e.name) with
  | some n => .ok n
  | none => .error (.valueError ("invalid literal for int() with base 10: " ++ pyDropFirst e.name))

/-- Pure version of the sort key for use in theorem statements; it agrees with
vKey whenever the suffix parses. -/
def vKeyN (e : Entry) : Int :=
  (pyInt? (pyDropFirst e.name)).getD 0

/-- Loop of Python max(xs, key=k): keep the current best, replace it when a
strictly larger key appears, propagate the first exception a key raises. -/
def pyMaxByAux (key : α → Except PyErr Int) (best : α) (bkey : Int) : List α → Except PyErr α
  | [] => .ok best
  | x :: xs =>
    match key x with
    | .error e => .error e
    | .ok kx => if bkey < kx then pyMaxByAux key x kx xs else pyMaxByAux key best bkey xs

/-- Models Python max(xs, key=k): error on an empty sequence, first element
with the strictly largest key otherwise, propagating key exceptions. -/
def pyMaxBy (key : α → Except PyErr Int) : List α → Except PyErr α
  | [] => .error (.valueError "max() arg is an empty sequence")
  | x :: xs =>
    match key x with
    | .error e => .error e
    | .ok kx => pyMaxByAux key x kx xs

/-- Pair each element with its computed key, stopping at the first key
exception, in iteration order, as Python list.sort does while decorating. -/
def decorate (key : α → Except PyErr Int) : List α → Except PyErr (List (Int × α))
  | [] => .ok []
  | x :: xs =>
    match key x with
    | .error e => .error e
    | .ok k =>
      match decorate key xs with
      | .error e => .error e
      | .ok ps => .ok ((k, x) :: ps)

/-- Stable descending insertion: skip over strictly larger keys, then insert
before the first key less than or equal, keeping earlier elements of the
original list in front of equal keys. -/
def insertDesc (p : Int × α) : List (Int × α) → List (Int × α)
  | [] => [p]
  | q :: qs => if p.1 < q.1 then q :: insertDesc p qs else p :: q :: qs

/-- Stable descending insertion sort on decorated pairs. -/
def sortDescPairs : List (Int × α) → List (Int × α)
  | [] => []
  | x :: xs => insertDesc x (sortDescPairs xs)

/-- Models xs.sort(key=k, reverse=True) on lines 226, 297, 360: a stable
descending sort by key, raising the first exception a key raises. Any stable
sorting algorithm is extensionally equal to the Timsort the source runs. -/
def pySortDescBy (key : α → Except PyErr Int) (l : List α) : Except PyErr (List α) :=
  match decorate key l with
  | .error e => .error e
  | .ok ps => .ok ((sortDescPairs ps).map Prod.snd)

/-- Filter on lines 71-73: keep top-level bindings whose name does not start
with an underscore and is entirely upper-case. -/
def upperBindings (binds : Bindings) : Bindings :=
  binds.filter (fun kv => !startswithUnderscore kv.1 && pyIsUpper kv.1)

/-- Filter on lines 181-184: keep top-level bindings that do not start with an
underscore and are callable. -/
def callableBindings (binds : List (String × PyAttr)) : List (String × PyAttr) :=
  binds.filter (fun kv => !startswithUnderscore kv.1 && kv.2.isCallable)

/-- Artifact probe on lines 50-57: prefer values.py, fall back to
variables.py, none when neither file exists; the payload is the effect of
executing the chosen artifact. -/
def valuesArtifactExec (c : DirContent) : Option (Except PyErr Bindings) :=
  if c.files.contains "values.py" then some c.valuesExec
  else if c.files.contains "variables.py" then some c.variablesExec
  else none

/-- Lines 59-82: execute the chosen artifact; on success extract the
upper-case non-underscore bindings, on a raised exception swallow it (after
an optional warning) and yield the empty mapping. -/
def execAndFilterUpper : Except PyErr Bindings → Bindings
  | .ok binds => upperBindings binds
  | .error _ => []

/-- Values loaded from one directory content, combining the artifact probe
with execution and extraction; absent artifact yields the empty mapping. -/
def loadValuesFrom (c : DirContent) : Bindings :=
  match valuesArtifactExec c with
  | some ex => execAndFilterUpper ex
  | none => []

/-- Version-directory resolution of _load_instruction_variables, lines 38-48:
exact directory when a version is given (existence checked only by the later
file probes, modelled as none content when absent); otherwise the instruction
directory itself when it has no v-children, else the numerically latest
v-child via max, whose key computation can raise ValueError. A missing
instruction directory is the early empty return on lines 42-43. -/
def valuesResolvedDir (d : InstructionDir) (version : Option String) : Except PyErr (Option DirContent) :=
  match version with
  | some v =>
    .ok (match dirLookup d v with
      | some e => if e.isDir then some e.content else none
      | none => none)
  | none =>
    if d.present then
      let vs := versionDirs d
      if vs.isEmpty then .ok (some d.here)
      else
        match pyMaxBy vKey vs with
        | .error e => .error e
        | .ok m => .ok (some m.content)
    else .ok none

/-- Embeds _load_instruction_variables, lines 25-82 of
instruction_renderer.py. -/
def load_instruction_variables (d : InstructionDir) (path : String) (version : Option String) : Except PyErr Bindings :=
  match valuesResolvedDir d version with
  | .error e => .error e
  | .ok (some c) => .ok (loadValuesFrom c)
  | .ok none => .ok []

/-- Composables loaded from one directory content, lines 166-193: empty when
the file is absent, otherwise the callable non-underscore bindings of a
successful execution, and the empty mapping when execution raises. -/
def composablesFrom (c : DirContent) : List (String × PyAttr) :=
  if c.files.contains "composables.py" then
    match c.composablesExec with
    | .ok binds => callableBindings binds
    | .error _ => []
  else []

/-- Embeds _load_instruction_composables, lines 140-193: exact version path
when given; otherwise the numerically latest v-child via max (ValueError can
propagate from the key), falling back to composables.py directly in the
instruction directory when there are no v-children, and the empty mapping
when the instruction directory does not exist. -/
def load_instruction_composables (d : InstructionDir) (path : String) (version : Option String) : Except PyErr (List (String × PyAttr)) :=
  match version with
  | some v =>
    .ok (match dirLookup d v with
      | some e => if e.isDir then composablesFrom e.content else []
      | none => [])
  | none =>
    if d.present then
      let vs := versionDirs d
      if vs.isEmpty then .ok (composablesFrom d.here)
      else
        match pyMaxBy vKey vs with
        | .error e => .error e
        | .ok m => .ok (composablesFrom m.content)
    else .ok []

/-- Attribute lookup in loaded module bindings, later bindings winning as in
the dict the source builds. -/
def attrLookup (bs : List (String × PyAttr)) (k : String) : Option PyAttr :=
  match bs.reverse.find? (fun kv => kv.1 == k) with
  | some kv => some kv.2
  | none => none

/-- Line 280: composables.get of compose_instruction, or else of
build_instruction; loaded composables are callables, hence truthy, so the
Python or is an option fallback. -/
def findMainComposer (cs : List (String × PyAttr)) : Option PyAttr :=
  (attrLookup cs "compose_instruction").orElse (fun _ => attrLookup cs "build_instruction")

/-- Template path resolution of render_template_instruction, lines 218-237:
the exact version when given (existence checked only when the templating
service loads the file); otherwise a search through the v-children sorted by
numeric suffix from highest downward for the first one that contains
instruction.j2, raising NotFound when the directory is missing or when no
version holds a template. -/
def resolveTemplateVersion (d : InstructionDir) (path : String) (version : Option String) : Except PyErr String :=
  match version with
  | some v => .ok v
  | none =>
    if d.present then
      match pySortDescBy vKey (versionDirs d) with
      | .error e => .error e
      | .ok sorted =>
        match sorted.find? (fun e => e.content.files.contains "instruction.j2") with
        | some e => .ok e.name
        | none => .error (.notFound ("No template found in any version of " ++ path))
    else .error (.notFound ("Instruction directory not found: " ++ path))

/-- Models env.get_template on line 240: return the parsed template of
INSTRUCTIONS_DIR/path/vname/instruction.j2, or raise TemplateNotFound when
that file does not exist. -/
def getTemplate (d : InstructionDir) (vname : String) : Except PyErr Template :=
  match dirLookup d vname with
  | some e =>
    if e.isDir && e.content.files.contains "instruction.j2" then .ok e.content.template
    else .error (.notFound ("Template not found: " ++ vname))
  | none => .error (.notFound ("Template not found: " ++ vname))

/-- Embeds render_template_instruction, lines 196-248: reject an empty
instruction path, resolve the template artifact, load the template, load the
instruction values (passing the original optional version through, line 242),
merge with caller context with the caller winning, render strictly and strip.
The try block on lines 239-248 logs and re-raises, so every failure inside it
propagates unchanged. -/
def render_template_instruction (d : InstructionDir) (path : String) (version : Option String) (ctx : Ctx) : Except PyErr String :=
  if path = "" then .error (.valueError "Instruction path must be a non-empty string")
  else
    match resolveTemplateVersion d path version with
    | .error e => .error e
    | .ok vname =>
      match getTemplate d vname with
      | .error e => .error e
      | .ok t =>
        match load_instruction_variables d path version with
        | .error e => .error e
        | .ok vars =>
          match jinjaRender t (pyDictMerge vars ctx) with
          | .ok r => .ok (pyStrip r)
          | .error e => .error e

/-- Fallback path resolution of compose_python_instruction, lines 290-308:
exact version path when given; otherwise, when the instruction directory
exists, the v-children sorted from highest downward are walked for the first
one containing instruction.py, with NotFound naming the instruction path when
none does; the final existence check on line 307 turns a missing directory or
missing exact-version file into NotFound naming the unresolved path. -/
def instructionPyResolve (d : InstructionDir) (path : String) (version : Option String) : Except PyErr String :=
  match version with
  | some v =>
    if vdirHasFile d v "instruction.py" then .ok (path ++ "/" ++ v ++ "/instruction.py")
    else .error (.notFound ("Instruction file not found: " ++ path ++ "/" ++ v ++ "/instruction.py"))
  | none =>
    if d.present then
      match pySortDescBy vKey (versionDirs d) with
      | .error e => .error e
      | .ok sorted =>
        match sorted.find? (fun e => e.content.files.contains "instruction.py") with
        | some e => .ok (path ++ "/" ++ e.name ++ "/instruction.py")
        | none => .error (.notFound ("No instruction.py found in any version of " ++ path))
    else .error (.notFound ("Instruction file not found: " ++ path))

/-- Embeds compose_python_instruction, lines 251-328: reject an empty path;
load the composables mapping (exceptions from version-key parsing propagate);
raise NotFound at once when the mapping is empty (line 277); invoke the main
composer when one is bound, stripping its result and propagating its
exceptions; otherwise resolve the instruction.py fallback path and attempt to
load it. The first statement of the try block on line 313 references the name
importlib, which is bound only inside the three loader functions and never at
module scope, so the load raises NameError, which the except clause on lines
324-326 logs and re-raises; the branch on lines 314-323 that would return the
INSTRUCTION constant or call compose_instruction is unreachable. -/
def compose_python_instruction (d : InstructionDir) (path : String) (version : Option String) (ctx : Ctx) : Except PyErr String :=
  if path = "" then .error (.valueError "Instruction path must be a non-empty string")
  else
    match load_instruction_composables d path version with
    | .error e => .error e
    | .ok composables =>
      if composables.isEmpty then .error (.notFound ("No composables found for instruction: " ++ path))
      else
        match findMainComposer composables with
        | some f =>
          match callAttr f ctx with
          | .ok r => .ok (pyStrip r)
          | .error e => .error e
        | none =>
          match instructionPyResolve d path version with
          | .error e => .error e
          | .ok _ => .error (.nameError "name importlib is not defined")

/-- Embeds compose_markdown_instruction, lines 331-378: reject an empty
path; exact version path when given; otherwise walk the v-children from
highest downward for the first one containing instruction.md, raising
NotFound when none does. When the version is omitted and the instruction
directory does not exist, no branch assigns instruction_md_path, so the
existence check on line 370 raises UnboundLocalError, a NameError subclass.
The context argument is accepted and ignored (line 341). -/
def compose_markdown_instruction (d : InstructionDir) (path : String) (version : Option String) (_ctx : Ctx) : Except PyErr String :=
  if path = "" then .error (.valueError "Instruction path must be a non-empty string")
  else
    match version with
    | some v =>
      match dirLookup d v with
      | some e =>
        if e.isDir && e.content.files.contains "instruction.md" then .ok (pyStrip e.content.mdText)
        else .error (.notFound ("Markdown instruction not found: " ++ path ++ "/" ++ v ++ "/instruction.md"))
      | none => .error (.notFound ("Markdown instruction not found: " ++ path ++ "/" ++ v ++ "/instruction.md"))
    | none =>
      if d.present then
        match pySortDescBy vKey (versionDirs d) with
        | .error e => .error e
        | .ok sorted =>
          match sorted.find? (fun e => e.content.files.contains "instruction.md") with
          | some e => .ok (pyStrip e.content.mdText)
          | none => .error (.notFound ("No instruction.md found in any version of " ++ path))
      else .error (.nameError "local variable instruction_md_path referenced before assignment")

/-- Base version resolution of render_instruction, lines 402-416: the given
version name as-is (its content found by lookup, none when absent); otherwise
the numerically latest v-child via max, with NotFound when the instruction
directory is missing or holds no v-children. -/
def basePathEntry (d : InstructionDir) (path : String) (version : Option String) : Except PyErr (String × Option DirContent) :=
  match version with
  | some v =>
    .ok (v, match dirLookup d v with
      | some e => if e.isDir then some e.content else none
      | none => none)
  | none =>
    if d.present then
      let vs := versionDirs d
      if vs.isEmpty then .error (.notFound ("No version directories found in " ++ path))
      else
        match pyMaxBy vKey vs with
        | .error e => .error e
        | .ok m => .ok (m.name, some m.content)
    else .error (.notFound ("Instruction directory not found: " ++ path))

/-- File probe against the resolved base directory content. -/
def optHasFile : Option DirContent → String → Bool
  | some c, f => c.files.contains f
  | none, _ => false

/-- Embeds render_instruction, lines 381-426: resolve the base version
directory, then dispatch on its artifacts in fixed priority order, first
instruction.j2, then instruction.py or composables.py, then instruction.md,
else NotFound naming the resolved version directory. Each strategy function
receives the instruction path, the original optional version and the context
unchanged. -/
def render_instruction (d : InstructionDir) (path : String) (version : Option String) (ctx : Ctx) : Except PyErr String :=
  match basePathEntry d path version with
  | .error e => .error e
  | .ok (vname, c) =>
    if optHasFile c "instruction.j2" then render_template_instruction d path version ctx
    else if optHasFile c "instruction.py" || optHasFile c "composables.py" then compose_python_instruction d path version ctx
    else if optHasFile c "instruction.md" then compose_markdown_instruction d path version ctx
    else .error (.notFound ("No valid instruction found in: " ++ path ++ "/" ++ vname))

/-- Rendering strategies named by the specification. -/
inductive Strategy where
  | template
  | composition
  | staticDoc
deriving DecidableEq, Repr

/-- Modelled from the spec, section 4.2 Strategy Detector: inspect the
resolved version directory in order, first match wins; a template artifact
gives TEMPLATE, an instruction-function or composables artifact gives
COMPOSITION, a static document gives STATIC, and none gives no strategy. -/
def detectStrategy (c : Option DirContent) : Option Strategy :=
  if optHasFile c "instruction.j2" then some .template
  else if optHasFile c "instruction.py" || optHasFile c "composables.py" then some .composition
  else if optHasFile c "instruction.md" then some .staticDoc
  else none

/-- Right bias of the dict merge: a key bound in the caller context keeps the
caller value after merging, whatever the left mapping binds. -/
theorem ctxLookup_append_right {a b : Ctx} {k v : String}
    (h : ctxLookup b k = some v) : ctxLookup (pyDictMerge a b) k = some v := by
  unfold ctxLookup at h ⊢
  unfold pyDictMerge
  rw [List.reverse_append, List.find?_append]
  cases hb : b.reverse.find? (fun kv => kv.1 == k) with
  | none => rw [hb] at h; exact absurd h (by simp)
  | some kv => rw [hb] at h; simpa [Option.or] using h

/-- A merged context misses a key exactly when both sides miss it; here only
the direction needed: if the merge finds nothing then the right side found
nothing. -/
theorem ctxLookup_none_of_merge_none {a b : Ctx} {k : String}
    (h : ctxLookup (pyDictMerge a b) k = none) : ctxLookup b k = none := by
  cases hb : ctxLookup b k with
  | none => rfl
  | some v => rw [ctxLookup_append_right hb] at h; cases h

/-- Strict rendering raises when the template references a variable the
context does not bind. -/
theorem jinjaRender_error_of_missing {t : Template} {c : Ctx} {m : String}
    (hm : TItem.var m ∈ t) (hc : ctxLookup c m = none) :
    ∃ err, jinjaRender t c = .error err := by
  induction t with
  | nil => cases hm
  | cons hd rest ih =>
    rcases List.mem_cons.mp hm with heq | hmem
    · cases hd with
      | lit s => exact TItem.noConfusion heq
      | var n =>
        have hnm : m = n := by injection heq
        subst hnm
        exact ⟨.undefinedError (m ++ " is undefined"), by simp [jinjaRender, hc]⟩
    · obtain ⟨er, her⟩ := ih hmem
      cases hd with
      | lit s => exact ⟨er, by simp [jinjaRender, her]⟩
      | var n =>
        cases hn : ctxLookup c n with
        | none => exact ⟨.undefinedError (n ++ " is undefined"), by simp [jinjaRender, hn]⟩
        | some v => exact ⟨er, by simp [jinjaRender, hn, her]⟩

/-- Membership through descending insertion. -/
theorem insertDesc_mem {α : Type} {x p : Int × α} {l : List (Int × α)} :
    x ∈ insertDesc p l ↔ x = p ∨ x ∈ l := by
  induction l with
  | nil => simp [insertDesc]
  | cons q qs ih =>
    by_cases h : p.1 < q.1
    · simp only [insertDesc, if_pos h, List.mem_cons, ih]
      tauto
    · simp only [insertDesc, if_neg h, List.mem_cons]

/-- Membership through the descending insertion sort. -/
theorem sortDescPairs_mem {α : Type} {x : Int × α} {l : List (Int × α)} :
    x ∈ sortDescPairs l ↔ x ∈ l := by
  induction l with
  | nil => simp [sortDescPairs]
  | cons q qs ih => simp only [sortDescPairs, insertDesc_mem, List.mem_cons, ih]

/-- Descending insertion preserves the descending order invariant. -/
theorem insertDesc_pairwise {α : Type} {p : Int × α} {l : List (Int × α)}
    (h : List.Pairwise (fun a b => b.1 ≤ a.1) l) :
    List.Pairwise (fun a b => b.1 ≤ a.1) (insertDesc p l) := by
  induction l with
  | nil => simp [insertDesc]
  | cons q qs ih =>
    rcases List.pairwise_cons.mp h with ⟨hq, hqs⟩
    by_cases hlt : p.1 < q.1
    · rw [show insertDesc p (q :: qs) = q :: insertDesc p qs by simp [insertDesc, hlt]]
      refine List.pairwise_cons.mpr ⟨?_, ih hqs⟩
      intro y hy
      rcases insertDesc_mem.mp hy with rfl | hy'
      · exact le_of_lt hlt
      · exact hq y hy'
    · rw [show insertDesc p (q :: qs) = p :: q :: qs by simp [insertDesc, hlt]]
      refine List.pairwise_cons.mpr ⟨?_, h⟩
      intro y hy
      rcases List.mem_cons.mp hy with rfl | hy'
      · exact le_of_not_lt hlt
      · exact le_trans (hq y hy') (le_of_not_lt hlt)

/-- The insertion sort produces a list sorted descending by key. -/
theorem sortDescPairs_pairwise {α : Type} (l : List (Int × α)) :
    List.Pairwise (fun a b => b.1 ≤ a.1) (sortDescPairs l) := by
  induction l with
  | nil => simp [sortDescPairs]
  | cons q qs ih => exact insertDesc_pairwise ih

/-- On a list sorted descending by key, the first element satisfying a
predicate has the largest key among all elements satisfying it. -/
theorem find?_desc_max {α : Type} {l : List (Int × α)} {p : Int × α → Bool} {x : Int × α}
    (hs : List.Pairwise (fun a b => b.1 ≤ a.1) l) (hf : l.find? p = some x) :
    ∀ y ∈ l, p y = true → y.1 ≤ x.1 := by
  induction l with
  | nil => cases hf
  | cons q qs ih =>
    rcases List.pairwise_cons.mp hs with ⟨hq, hqs⟩
    intro y hy hpy
    rw [List.find?_cons] at hf
    cases hpq : p q with
    | true =>
      rw [hpq] at hf
      have hqx : q = x := by injection hf
      subst hqx
      rcases List.mem_cons.mp hy with rfl | hy'
      · exact le_refl _
      · exact hq y hy'
    | false =>
      rw [hpq] at hf
      rcases List.mem_cons.mp hy with rfl | hy'
      · rw [hpq] at hpy; cases hpy
      · exact ih hqs hf y hy' hpy

/-- When every key computes, decoration succeeds and produces the key-value
pairs in order. -/
theorem decorate_ok {α : Type} {key : α → Except PyErr Int} {kf : α → Int} {l : List α}
    (h : ∀ y ∈ l, key y = .ok (kf y)) :
    decorate key l = .ok (l.map (fun y => (kf y, y))) := by
  induction l with
  | nil => rfl
  | cons x xs ih =>
    have hx := h x (List.mem_cons_self x xs)
    have ihh := ih (fun y hy => h y (List.mem_cons_of_mem _ hy))
    simp [decorate, hx, ihh]

/-- The max loop, when every key computes, returns a member bounding the
running best and every remaining key from above. -/
theorem pyMaxByAux_char {α : Type} {key : α → Except PyErr Int} {kf : α → Int}
    {l : List α} {best : α}
    (h : ∀ y ∈ l, key y = .ok (kf y)) :
    ∃ m, pyMaxByAux key best (kf best) l = .ok m ∧ (m = best ∨ m ∈ l) ∧
      kf best ≤ kf m ∧ ∀ y ∈ l, kf y ≤ kf m := by
  induction l generalizing best with
  | nil => exact ⟨best, rfl, Or.inl rfl, le_refl _, by simp⟩
  | cons x xs ih =>
    have hx := h x (List.mem_cons_self x xs)
    have hxs : ∀ y ∈ xs, key y = .ok (kf y) := fun y hy => h y (List.mem_cons_of_mem _ hy)
    by_cases hlt : kf best < kf x
    · obtain ⟨m, hm, hmem, hge, hall⟩ := @ih x hxs
      refine ⟨m, ?_, ?_, le_trans (le_of_lt hlt) hge, ?_⟩
      · simp only [pyMaxByAux, hx, if_pos hlt]; exact hm
      · rcases hmem with rfl | hmem'
        · exact Or.inr (List.mem_cons_self _ _)
        · exact Or.inr (List.mem_cons_of_mem _ hmem')
      · intro y hy
        rcases List.mem_cons.mp hy with rfl | hy'
        · exact hge
        · exact hall y hy'
    · obtain ⟨m, hm, hmem, hge, hall⟩ := @ih best hxs
      refine ⟨m, ?_, ?_, hge, ?_⟩
      · simp only [pyMaxByAux, hx, if_neg hlt]; exact hm
      · rcases hmem with rfl | hmem'
        · exact Or.inl rfl
        · exact Or.inr (List.mem_cons_of_mem _ hmem')
      · intro y hy
        rcases List.mem_cons.mp hy with rfl | hy'
        · exact le_trans (le_of_not_lt hlt) hge
        · exact hall y hy'

/-- Python max on a nonempty list whose keys all compute returns a member
whose key bounds every key from above. -/
theorem pyMaxBy_char {α : Type} {key : α → Except PyErr Int} {kf : α → Int}
    {l : List α} (hne : l ≠ [])
    (h : ∀ y ∈ l, key y = .ok (kf y)) :
    ∃ m, pyMaxBy key l = .ok m ∧ m ∈ l ∧ ∀ y ∈ l, kf y ≤ kf m := by
  cases l with
  | nil => exact absurd rfl hne
  | cons x xs =>
    have hx := h x (List.mem_cons_self x xs)
    obtain ⟨m, hm, hmem, hbest, hall⟩ :=
      @pyMaxByAux_char _ key kf xs x (fun y hy => h y (List.mem_cons_of_mem _ hy))
    refine ⟨m, ?_, ?_, ?_⟩
    · simp only [pyMaxBy, hx]; exact hm
    · rcases hmem with rfl | hmem'
      · exact List.mem_cons_self _ _
      · exact List.mem_cons_of_mem _ hmem'
    · intro y hy
      rcases List.mem_cons.mp hy with rfl | hy'
      · exact hbest
      · exact hall y hy'

/-- The max loop propagates a key exception raised by any remaining element,
and under the value-error shape of version keys the propagated exception is a
ValueError. -/
theorem pyMaxByAux_error {α : Type} {key : α → Except PyErr Int}
    (hshape : ∀ (y : α) (er : PyErr), key y = .error er → ∃ s, er = PyErr.valueError s)
    {l : List α} :
    ∀ (best : α) (bkey : Int) {y : α} {er : PyErr}, y ∈ l → key y = .error er →
      ∃ s, pyMaxByAux key best bkey l = .error (.valueError s) := by
  induction l with
  | nil => intro best bkey y er hy; cases hy
  | cons x xs ih =>
    intro best bkey y er hy hker
    cases hkx : key x with
    | error e =>
      obtain ⟨s, rfl⟩ := hshape x e hkx
      exact ⟨s, by simp [pyMaxByAux, hkx]⟩
    | ok kx =>
      have hyxs : y ∈ xs := by
        rcases List.mem_cons.mp hy with rfl | h'
        · rw [hkx] at hker; cases hker
        · exact h'
      by_cases hlt : bkey < kx
      · obtain ⟨s, hs⟩ := ih x kx hyxs hker
        exact ⟨s, by simp only [pyMaxByAux, hkx, if_pos hlt]; exact hs⟩
      · obtain ⟨s, hs⟩ := ih best bkey hyxs hker
        exact ⟨s, by simp only [pyMaxByAux, hkx, if_neg hlt]; exact hs⟩

/-- Python max raises a ValueError when any element of the list has a key
whose computation raises one. -/
theorem pyMaxBy_error {α : Type} {key : α → Except PyErr Int}
    (hshape : ∀ (y : α) (er : PyErr), key y = .error er → ∃ s, er = PyErr.valueError s)
    {l : List α} {y : α} {er : PyErr} (hy : y ∈ l) (hker : key y = .error er) :
    ∃ s, pyMaxBy key l = .error (.valueError s) := by
  cases l with
  | nil => cases hy
  | cons x xs =>
    cases hkx : key x with
    | error e =>
      obtain ⟨s, rfl⟩ := hshape x e hkx
      exact ⟨s, by simp [pyMaxBy, hkx]⟩
    | ok kx =>
      have hyxs : y ∈ xs := by
        rcases List.mem_cons.mp hy with rfl | h'
        · rw [hkx] at hker; cases hker
        · exact h'
      obtain ⟨s, hs⟩ := pyMaxByAux_error hshape x kx hyxs hker
      exact ⟨s, by simp only [pyMaxBy, hkx]; exact hs⟩

/-- A version key that parses computes to the pure key. -/
theorem vKey_ok_of_isSome {e : Entry} (h : (pyInt? (pyDropFirst e.name)).isSome = true) :
    vKey e = .ok (vKeyN e) := by
  unfold vKey vKeyN
  cases hp : pyInt? (pyDropFirst e.name) with
  | none => rw [hp] at h; cases h
  | some n => simp [hp]

/-- Version keys only ever raise ValueError. -/
theorem vKey_error_shape (e : Entry) (er : PyErr) (h : vKey e = .error er) :
    ∃ s, er = PyErr.valueError s := by
  unfold vKey at h
  cases hp : pyInt? (pyDropFirst e.name) with
  | none =>
    rw [hp] at h
    injection h with h2
    exact ⟨_, h2.symm⟩
  | some n => rw [hp] at h; cases h

/-- A version key with a non-numeric suffix raises ValueError. -/
theorem vKey_error_of_none {e : Entry} (h : pyInt? (pyDropFirst e.name) = none) :
    vKey e = .error (.valueError ("invalid literal for int() with base 10: " ++ pyDropFirst e.name)) := by
  simp [vKey, h]

/-- When every version key parses, the descending sort succeeds and returns
the stable descending rearrangement. -/
theorem pySortDescBy_ok {l : List Entry}
    (h : ∀ y ∈ l, (pyInt? (pyDropFirst y.name)).isSome = true) :
    pySortDescBy vKey l = .ok ((sortDescPairs (l.map (fun y => (vKeyN y, y)))).map Prod.snd) := by
  have hk : ∀ y ∈ l, vKey y = .ok (vKeyN y) := fun y hy => vKey_ok_of_isSome (h y hy)
  unfold pySortDescBy
  rw [decorate_ok hk]

/-- Every element survives sorting: membership in the sorted projection. -/
theorem mem_sorted_of_mem {l : List Entry} {y : Entry} (hy : y ∈ l) :
    y ∈ (sortDescPairs (l.map (fun z => (vKeyN z, z)))).map Prod.snd := by
  refine List.mem_map.mpr ⟨(vKeyN y, y), ?_, rfl⟩
  exact sortDescPairs_mem.mpr (List.mem_map.mpr ⟨y, hy, rfl⟩)

/-- The first match in the descending sort is a member, satisfies the
predicate, and carries the largest key among all members satisfying it. -/
theorem sorted_find?_char {l : List Entry} {p : Entry → Bool} {x : Entry}
    (hf : ((sortDescPairs (l.map (fun y => (vKeyN y, y)))).map Prod.snd).find? p = some x) :
    x ∈ l ∧ p x = true ∧ ∀ y ∈ l, p y = true → vKeyN y ≤ vKeyN x := by
  rw [List.find?_map] at hf
  cases hpx : (sortDescPairs (l.map (fun y => (vKeyN y, y)))).find? (p ∘ Prod.snd) with
  | none => rw [hpx] at hf; cases hf
  | some px =>
    rw [hpx] at hf
    have hx2 : px.2 = x := by injection hf
    have hmem : px ∈ sortDescPairs (l.map (fun y => (vKeyN y, y))) := List.mem_of_find?_eq_some hpx
    have hmem2 : px ∈ l.map (fun y => (vKeyN y, y)) := sortDescPairs_mem.mp hmem
    obtain ⟨z, hz, hze⟩ := List.mem_map.mp hmem2
    have hp1 : px.1 = vKeyN x := by rw [← hze] at hx2 ⊢; simpa using hx2 ▸ rfl
    have hxl : x ∈ l := by rw [← hx2, ← hze]; exact hz
    have hpx2 : p x = true := by
      have := List.find?_some hpx
      simpa [hx2] using this
    refine ⟨hxl, hpx2, ?_⟩
    intro y hy hpy
    have hymem : (vKeyN y, y) ∈ sortDescPairs (l.map (fun z => (vKeyN z, z))) :=
      sortDescPairs_mem.mpr (List.mem_map.mpr ⟨y, hy, rfl⟩)
    have := find?_desc_max (sortDescPairs_pairwise _) hpx (vKeyN y, y) hymem (by simpa using hpy)
    rw [hp1] at this
    exact this

/-- A nonempty list is not isEmpty. -/
theorem isEmpty_false_of_ne_nil {α : Type} {l : List α} (h : l ≠ []) : l.isEmpty = false := by
  cases l with
  | nil => exact absurd rfl h
  | cons a as => rfl

/-- Elements of the sorted projection come from the original list. -/
theorem mem_of_mem_sorted {l : List Entry} {y : Entry}
    (hy : y ∈ (sortDescPairs (l.map (fun z => (vKeyN z, z)))).map Prod.snd) : y ∈ l := by
  obtain ⟨px, hpx, hpe⟩ := List.mem_map.mp hy
  obtain ⟨z, hz, hze⟩ := List.mem_map.mp (sortDescPairs_mem.mp hpx)
  rw [← hpe, ← hze]
  exact hz

/-- Concrete tree for claim C1: instruction path p whose only version v1
holds an instruction-function artifact instruction.py and no composables
artifact, so loading composables yields the empty mapping. -/
def dirC1 : InstructionDir :=
  { present := true,
    entries := [{ name := "v1", isDir := true, content := { files := ["instruction.py"] } }] }

/-- C1: refuted on the code. When loading composables yields an empty
mapping, compose_python_instruction raises NotFound at the emptiness check
(line 277) at that very point, even though the version-local
instruction-function artifact instruction.py exists at v1 and the claimed
fallback would be available; the fallback on lines 288-308 is reached only
when the composables mapping is non-empty. -/
theorem compose_python_instruction_errors_without_composables :
    vdirHasFile dirC1 "v1" "instruction.py" = true ∧
    load_instruction_composables dirC1 "p" none = .ok [] ∧
    compose_python_instruction dirC1 "p" none [] =
      .error (.notFound "No composables found for instruction: p") :=
  ⟨rfl, rfl, rfl⟩

/-- Concrete tree for claim C2: v1 holds a composables artifact binding one
helper callable that is not a main composer, and an instruction-function
artifact, so the fallback on lines 288-326 is reached. -/
def dirC2 : InstructionDir :=
  { present := true,
    entries := [{ name := "v1", isDir := true,
                  content := { files := ["composables.py", "instruction.py"],
                               composablesExec := .ok [("helper", .fn (fun _ => .ok "x"))] } }] }

/-- C2: refuted on the code. The fallback is reached and the resolved
instruction-function artifact exists, but the fallback loader raises
NameError instead of loading it: line 313 references the name importlib,
which is imported only inside the three loader functions and never at module
scope, so the isolated-unit load never happens and no constant is returned. -/
theorem compose_python_instruction_fallback_name_error :
    vdirHasFile dirC2 "v1" "instruction.py" = true ∧
    compose_python_instruction dirC2 "p" none [] =
      .error (.nameError "name importlib is not defined") :=
  ⟨rfl, rfl⟩

/-- Concrete tree for the C8 counterexample: a valid version v1 holding a
static document next to a child directory venv whose suffix env is not
numeric. -/
def dirC8 : InstructionDir :=
  { present := true,
    entries := [{ name := "v1", isDir := true, content := { files := ["instruction.md"], mdText := "Hello" } },
                { name := "venv", isDir := true, content := {} }] }

/-- C8 counterexample: with a child directory named venv present, resolution
does not ignore it and does not complete; int on the suffix env raises
ValueError, which propagates out of render_instruction. -/
theorem render_instruction_venv_child_raises :
    render_instruction dirC8 "p" none [] =
      .error (.valueError "invalid literal for int() with base 10: env") := rfl

/-- C8 (amended): when version is omitted, version selection considers every
child directory whose name starts with v; a child whose name starts with v
but whose suffix is not all digits is not ignored: parsing its suffix as an
integer raises ValueError, so resolution fails with a ValueError instead of
completing. -/
theorem render_instruction_nonnumeric_child_value_error (d : InstructionDir) (path : String)
    (ctx : Ctx) (e : Entry) (hp : d.present = true) (he : e ∈ versionDirs d)
    (hbad : pyInt? (pyDropFirst e.name) = none) :
    ∃ s, render_instruction d path none ctx = .error (.valueError s) := by
  obtain ⟨s, hs⟩ := pyMaxBy_error vKey_error_shape he (vKey_error_of_none hbad)
  have hne : (versionDirs d).isEmpty = false := by
    refine isEmpty_false_of_ne_nil ?_
    intro hcon
    rw [hcon] at he
    cases he
  refine ⟨s, ?_⟩
  simp [render_instruction, basePathEntry, hp, hne, hs]

/-- Child used by the C8 amended witness. -/
def entC8w : Entry := { name := "venv", isDir := true, content := {} }

/-- Concrete tree for the C8 amended witness. -/
def dirC8w : InstructionDir := { present := true, entries := [entC8w] }

/-- C8 amended witness: the amended statement applied to a concrete tree with
a venv child. -/
theorem render_instruction_nonnumeric_child_value_error_witness :
    ∃ s, render_instruction dirC8w "p" none [] = .error (.valueError s) :=
  render_instruction_nonnumeric_child_value_error dirC8w "p" [] entC8w rfl
    (List.mem_cons_self _ _) rfl

/-- Concrete tree for the C9 counterexample: the only child directory is
venv, whose suffix env is not numeric. -/
def dirC9 : InstructionDir :=
  { present := true,
    entries := [{ name := "venv", isDir := true, content := {} }] }

/-- C9 counterexample: the value loader does propagate an exception to its
caller on this input; latest-version resolution on line 48 runs before the
try block, and int on the suffix env raises ValueError out of
_load_instruction_variables. -/
theorem load_instruction_variables_venv_child_raises :
    load_instruction_variables dirC9 "p" none =
      .error (.valueError "invalid literal for int() with base 10: env") := rfl

/-- C9 (amended): apart from latest-version resolution, which can propagate a
ValueError when a v-prefixed child directory has a non-numeric suffix, the
value loader propagates no exception: whenever version resolution succeeds,
the result is ok, on a successful artifact execution it is exactly the
top-level bindings whose names are entirely upper-case and do not start with
an underscore, and on a failed execution or a missing artifact it is the
empty mapping, never a partial one. -/
theorem load_instruction_variables_full_or_empty (d : InstructionDir) (path : String)
    (version : Option String)
    (h : version = none → ∀ e ∈ versionDirs d, (pyInt? (pyDropFirst e.name)).isSome = true) :
    (∃ vars, load_instruction_variables d path version = .ok vars) ∧
    ∀ oc, valuesResolvedDir d version = .ok oc →
      ((oc = none → load_instruction_variables d path version = .ok []) ∧
       ∀ c, oc = some c →
         ((∀ binds, valuesArtifactExec c = some (.ok binds) →
             load_instruction_variables d path version = .ok (upperBindings binds)) ∧
          (∀ er, valuesArtifactExec c = some (.error er) →
             load_instruction_variables d path version = .ok []) ∧
          (valuesArtifactExec c = none →
             load_instruction_variables d path version = .ok []))) := by
  have hres : ∃ oc, valuesResolvedDir d version = .ok oc := by
    cases hv : version with
    | some v => exact ⟨_, rfl⟩
    | none =>
      cases hp : d.present with
      | false => exact ⟨none, by simp [valuesResolvedDir, hp]⟩
      | true =>
        cases hvs : (versionDirs d).isEmpty with
        | true => exact ⟨some d.here, by simp [valuesResolvedDir, hp, hvs]⟩
        | false =>
          have hne : versionDirs d ≠ [] := by
            intro hcon
            rw [hcon] at hvs
            cases hvs
          have hwf : ∀ y ∈ versionDirs d, vKey y = .ok (vKeyN y) :=
            fun y hy => vKey_ok_of_isSome (h hv y hy)
          obtain ⟨m, hm, _, _⟩ := pyMaxBy_char hne hwf
          exact ⟨some m.content, by simp [valuesResolvedDir, hp, hvs, hm]⟩
  obtain ⟨oc0, hoc0⟩ := hres
  constructor
  · cases oc0 with
    | none => exact ⟨[], by simp [load_instruction_variables, hoc0]⟩
    | some c => exact ⟨loadValuesFrom c, by simp [load_instruction_variables, hoc0]⟩
  · intro oc hoc
    constructor
    · intro h0
      subst h0
      simp [load_instruction_variables, hoc]
    · intro c hc
      subst hc
      refine ⟨?_, ?_, ?_⟩
      · intro binds hb
        simp [load_instruction_variables, hoc, loadValuesFrom, hb, execAndFilterUpper]
      · intro er hb
        simp [load_instruction_variables, hoc, loadValuesFrom, hb, execAndFilterUpper]
      · intro hb
        simp [load_instruction_variables, hoc, loadValuesFrom, hb]

/-- Values-artifact content used by the C9 amended witness. -/
def contC9w : DirContent :=
  { files := ["values.py"],
    valuesExec := .ok [("GREETING", "hi"), ("_TMP", "a"), ("small", "b")] }

/-- Concrete tree for the C9 amended witness. -/
def dirC9w : InstructionDir :=
  { present := true,
    entries := [{ name := "v1", isDir := true, content := contC9w }] }

/-- C9 amended witness: the amended statement applied to a concrete tree
whose values artifact executes successfully; only the upper-case
non-underscore binding survives. -/
theorem load_instruction_variables_full_or_empty_witness :
    load_instruction_variables dirC9w "p" none = .ok [("GREETING", "hi")] :=
  (((load_instruction_variables_full_or_empty dirC9w "p" none (fun _ => by decide)).2
      (some contC9w) rfl).2 contC9w rfl).1 [("GREETING", "hi"), ("_TMP", "a"), ("small", "b")] rfl

/-- C10: an instruction directory that exists but has no v-children probes
the values artifact and the composables artifact directly in the instruction
directory itself instead of returning an empty mapping at once. -/
theorem unversioned_dir_probes_artifacts (d : InstructionDir) (path : String)
    (hp : d.present = true) (h0 : versionDirs d = []) :
    (∀ binds : Bindings, d.here.files.contains "values.py" = true →
        d.here.valuesExec = .ok binds →
        load_instruction_variables d path none = .ok (upperBindings binds)) ∧
    (∀ cbinds : List (String × PyAttr), d.here.files.contains "composables.py" = true →
        d.here.composablesExec = .ok cbinds →
        load_instruction_composables d path none = .ok (callableBindings cbinds)) := by
  constructor
  · intro binds hf hex
    have hf2 : "values.py" ∈ d.here.files := by simpa using hf
    simp [load_instruction_variables, valuesResolvedDir, hp, h0, loadValuesFrom,
      valuesArtifactExec, hf2, hex, execAndFilterUpper]
  · intro cbinds hf hex
    have hf2 : "composables.py" ∈ d.here.files := by simpa using hf
    simp [load_instruction_composables, hp, h0, composablesFrom, hf2, hex]

/-- Unversioned instruction directory used by the C10 witness. -/
def dirC10 : InstructionDir :=
  { present := true,
    here := { files := ["values.py", "composables.py"],
              valuesExec := .ok [("NAME", "x"), ("_HIDDEN", "y"), ("low", "z")],
              composablesExec := .ok [("compose_instruction", .fn (fun _ => .ok "t")), ("CONST", .text "c")] } }

/-- C10 witness: both probes succeed on a concrete unversioned instruction
directory, returning the filtered bindings. -/
theorem unversioned_dir_probes_artifacts_witness :
    load_instruction_variables dirC10 "p" none = .ok [("NAME", "x")] ∧
    load_instruction_composables dirC10 "p" none =
      .ok (callableBindings [("compose_instruction", .fn (fun _ => .ok "t")), ("CONST", .text "c")]) :=
  ⟨(unversioned_dir_probes_artifacts dirC10 "p" rfl rfl).1 _ rfl rfl,
   (unversioned_dir_probes_artifacts dirC10 "p" rfl rfl).2 _ rfl rfl⟩

/-- C3: the dispatch of render_instruction refines the strategy detector of
the spec: for every resolved base version directory, a detected TEMPLATE
strategy dispatches to template rendering (regardless of other artifacts), a
detected COMPOSITION strategy dispatches to composition, a detected STATIC
strategy dispatches to the static loader, and no detected strategy fails with
NotFound naming the resolved version directory. -/
theorem render_instruction_dispatch (d : InstructionDir) (path : String) (version : Option String)
    (ctx : Ctx) (vname : String) (c : Option DirContent)
    (hres : basePathEntry d path version = .ok (vname, c)) :
    (detectStrategy c = some .template →
      render_instruction d path version ctx = render_template_instruction d path version ctx) ∧
    (detectStrategy c = some .composition →
      render_instruction d path version ctx = compose_python_instruction d path version ctx) ∧
    (detectStrategy c = some .staticDoc →
      render_instruction d path version ctx = compose_markdown_instruction d path version ctx) ∧
    (detectStrategy c = none →
      render_instruction d path version ctx =
        .error (.notFound ("No valid instruction found in: " ++ path ++ "/" ++ vname))) := by
  have hr : render_instruction d path version ctx =
      (if optHasFile c "instruction.j2" then render_template_instruction d path version ctx
       else if optHasFile c "instruction.py" || optHasFile c "composables.py" then
         compose_python_instruction d path version ctx
       else if optHasFile c "instruction.md" then compose_markdown_instruction d path version ctx
       else .error (.notFound ("No valid instruction found in: " ++ path ++ "/" ++ vname))) := by
    unfold render_instruction
    rw [hres]
  cases hj : optHasFile c "instruction.j2" with
  | true =>
    refine ⟨fun _ => by rw [hr]; simp [hj], ?_, ?_, ?_⟩ <;>
      · intro hdet
        simp [detectStrategy, hj] at hdet
  | false =>
    cases hpc : (optHasFile c "instruction.py" || optHasFile c "composables.py") with
    | true =>
      refine ⟨?_, fun _ => by rw [hr]; simp [hj, hpc], ?_, ?_⟩ <;>
        · intro hdet
          simp [detectStrategy, hj, hpc] at hdet
    | false =>
      cases hmd : optHasFile c "instruction.md" with
      | true =>
        refine ⟨?_, ?_, fun _ => by rw [hr]; simp [hj, hpc, hmd], ?_⟩ <;>
          · intro hdet
            simp [detectStrategy, hj, hpc, hmd] at hdet
      | false =>
        refine ⟨?_, ?_, ?_, fun _ => by rw [hr]; simp [hj, hpc, hmd]⟩ <;>
          · intro hdet
            simp [detectStrategy, hj, hpc, hmd] at hdet

/-- Base directory content for the C3 witness: a template artifact together
with a composables artifact and a static document in the same version. -/
def contC3 : DirContent := { files := ["instruction.j2", "composables.py", "instruction.md"] }

/-- Concrete tree for the C3 witness. -/
def dirC3 : InstructionDir :=
  { present := true,
    entries := [{ name := "v1", isDir := true, content := contC3 }] }

/-- C3 witness: on a version directory holding template, composables and
static artifacts at once, the dispatcher goes to template rendering. -/
theorem render_instruction_dispatch_witness :
    render_instruction dirC3 "p" none [] = render_template_instruction dirC3 "p" none [] :=
  (render_instruction_dispatch dirC3 "p" none [] "v1" (some contC3) rfl).1 rfl

/-- C4: strict undefined semantics; when the merged context lacks a variable
that the resolved template references, render_template_instruction returns an
error and never an output string. -/
theorem render_template_strict_undefined (d : InstructionDir) (path : String)
    (version : Option String) (ctx : Ctx) (vname : String) (e : Entry) (vars : Bindings) (m : String)
    (hp : path ≠ "")
    (hres : resolveTemplateVersion d path version = .ok vname)
    (he : dirLookup d vname = some e) (hd : e.isDir = true)
    (hj2 : e.content.files.contains "instruction.j2" = true)
    (hload : load_instruction_variables d path version = .ok vars)
    (hvar : TItem.var m ∈ e.content.template)
    (hmiss : ctxLookup (pyDictMerge vars ctx) m = none) :
    ∃ err, render_template_instruction d path version ctx = .error err := by
  have hj2m : e.content.files.contains "instruction.j2" = true := hj2
  have hget : getTemplate d vname = .ok e.content.template := by
    simp [getTemplate, he, hd]
    simpa using hj2m
  obtain ⟨er, her⟩ := jinjaRender_error_of_missing hvar hmiss
  exact ⟨er, by simp [render_template_instruction, hp, hres, hget, hload, her]⟩

/-- Version directory content for the C4 witness: a template referencing
NAME with no values artifact. -/
def contC4 : DirContent := { files := ["instruction.j2"], template := [.var "NAME"] }

/-- Concrete tree for the C4 witness. -/
def dirC4 : InstructionDir :=
  { present := true,
    entries := [{ name := "v1", isDir := true, content := contC4 }] }

/-- C4 witness: rendering a template that references NAME with no caller
override and no instruction-local value raises. -/
theorem render_template_strict_undefined_witness :
    ∃ err, render_template_instruction dirC4 "p" (some "v1") [] = .error err :=
  render_template_strict_undefined dirC4 "p" (some "v1") [] "v1"
    { name := "v1", isDir := true, content := contC4 } [] "NAME"
    (by decide) rfl rfl rfl rfl rfl (List.mem_cons_self _ _) rfl

/-- C5: context override is right-biased; a caller-supplied binding for a key
is the one bound in the merged context whatever the instruction-local values
bind, and the rendered output of a template referencing that key is the
caller value. -/
theorem render_template_context_right_biased (d : InstructionDir) (path v : String)
    (ctx : Ctx) (e : Entry) (vars : Bindings) (k bv : String)
    (hp : path ≠ "")
    (he : dirLookup d v = some e) (hd : e.isDir = true)
    (hj2 : e.content.files.contains "instruction.j2" = true)
    (ht : e.content.template = [TItem.var k])
    (hload : load_instruction_variables d path (some v) = .ok vars)
    (hk : ctxLookup ctx k = some bv) :
    ctxLookup (pyDictMerge vars ctx) k = some bv ∧
    render_template_instruction d path (some v) ctx = .ok (pyStrip bv) := by
  have hmerge := @ctxLookup_append_right vars ctx k bv hk
  refine ⟨hmerge, ?_⟩
  have hget : getTemplate d v = .ok e.content.template := by
    simp [getTemplate, he, hd]
    simpa using hj2
  have hrend : jinjaRender [TItem.var k] (pyDictMerge vars ctx) = .ok bv := by
    simp [jinjaRender, hmerge]
  simp [render_template_instruction, hp, resolveTemplateVersion, hget, ht, hload, hrend]

/-- Version directory content for the C5 witness: a template referencing X
and a values artifact binding X to a. -/
def contC5 : DirContent :=
  { files := ["instruction.j2", "values.py"],
    template := [.var "X"],
    valuesExec := .ok [("X", "a")] }

/-- Concrete tree for the C5 witness. -/
def dirC5 : InstructionDir :=
  { present := true,
    entries := [{ name := "v1", isDir := true, content := contC5 }] }

/-- C5 witness: with instruction-local X bound to a and caller-supplied X
bound to b, the merged context and the rendered output both carry b. -/
theorem render_template_context_right_biased_witness :
    ctxLookup (pyDictMerge [("X", "a")] [("X", "b")]) "X" = some "b" ∧
    render_template_instruction dirC5 "p" (some "v1") [("X", "b")] = .ok "b" :=
  render_template_context_right_biased dirC5 "p" "v1" [("X", "b")]
    { name := "v1", isDir := true, content := contC5 } [("X", "a")] "X" "b"
    (by decide) rfl rfl rfl rfl rfl rfl

/-- C6: with version omitted, template resolution searches the version
directories from the highest numeric suffix downward and selects the first
one containing a template artifact, which therefore carries the largest key
among all template-bearing versions; when no version directory exists or none
contains a template artifact, render_template_instruction fails with NotFound
naming the instruction path. -/
theorem render_template_latest_with_template (d : InstructionDir) (path : String) (ctx : Ctx)
    (hp : path ≠ "") (hpres : d.present = true)
    (hwf : ∀ e ∈ versionDirs d, (pyInt? (pyDropFirst e.name)).isSome = true) :
    ((∀ e ∈ versionDirs d, e.content.files.contains "instruction.j2" = false) →
      render_template_instruction d path none ctx =
        .error (.notFound ("No template found in any version of " ++ path))) ∧
    (∀ vname, resolveTemplateVersion d path none = .ok vname →
      ∃ e, e ∈ versionDirs d ∧ e.name = vname ∧
        e.content.files.contains "instruction.j2" = true ∧
        ∀ y ∈ versionDirs d, y.content.files.contains "instruction.j2" = true → vKeyN y ≤ vKeyN e) ∧
    ((∃ e, e ∈ versionDirs d ∧ e.content.files.contains "instruction.j2" = true) →
      ∃ vname, resolveTemplateVersion d path none = .ok vname) := by
  have hsort := pySortDescBy_ok hwf
  have hrtv : resolveTemplateVersion d path none =
      (match ((sortDescPairs ((versionDirs d).map (fun y => (vKeyN y, y)))).map Prod.snd).find?
          (fun e => e.content.files.contains "instruction.j2") with
        | some e => Except.ok e.name
        | none => Except.error (.notFound ("No template found in any version of " ++ path))) := by
    unfold resolveTemplateVersion
    rw [if_pos hpres, hsort]
  refine ⟨?_, ?_, ?_⟩
  · intro hnone
    have hfind : ((sortDescPairs ((versionDirs d).map (fun y => (vKeyN y, y)))).map
        Prod.snd).find? (fun e => e.content.files.contains "instruction.j2") = none := by
      rw [List.find?_eq_none]
      intro x hx hpx
      have hx2 : x.content.files.contains "instruction.j2" = true := hpx
      rw [hnone x (mem_of_mem_sorted hx)] at hx2
      exact Bool.noConfusion hx2
    have hres0 : resolveTemplateVersion d path none =
        .error (.notFound ("No template found in any version of " ++ path)) := by
      rw [hrtv, hfind]
    unfold render_template_instruction
    rw [if_neg hp, hres0]
  · intro vname hres
    rw [hrtv] at hres
    cases hfind : ((sortDescPairs ((versionDirs d).map (fun y => (vKeyN y, y)))).map
        Prod.snd).find? (fun e => e.content.files.contains "instruction.j2") with
    | none => rw [hfind] at hres; cases hres
    | some e =>
      rw [hfind] at hres
      have hres2 : (Except.ok e.name : Except PyErr String) = Except.ok vname := hres
      have hname : e.name = vname := by injection hres2
      obtain ⟨hmem, hpe, hmax⟩ := sorted_find?_char hfind
      exact ⟨e, hmem, hname, hpe, hmax⟩
  · intro hex
    cases hfind : ((sortDescPairs ((versionDirs d).map (fun y => (vKeyN y, y)))).map
        Prod.snd).find? (fun e => e.content.files.contains "instruction.j2") with
    | none =>
      exfalso
      obtain ⟨e, hel, hej⟩ := hex
      exact (List.find?_eq_none.mp hfind e (mem_sorted_of_mem hel)) hej
    | some e =>
      refine ⟨e.name, ?_⟩
      rw [hrtv, hfind]

/-- Concrete tree for the C6 witness: the numerically larger version v2 has
no template artifact, the older v1 does. -/
def dirC6 : InstructionDir :=
  { present := true,
    entries := [{ name := "v1", isDir := true, content := { files := ["instruction.j2"], template := [.lit "Hi"] } },
                { name := "v2", isDir := true, content := { files := ["composables.py"] } }] }

/-- C6 witness: resolution selects v1, the highest-numbered version that
contains a template, skipping the template-less v2 above it. -/
theorem render_template_latest_with_template_witness :
    resolveTemplateVersion dirC6 "p" none = .ok "v1" ∧
    (∃ e, e ∈ versionDirs dirC6 ∧ e.name = "v1" ∧
      e.content.files.contains "instruction.j2" = true ∧
      ∀ y ∈ versionDirs dirC6, y.content.files.contains "instruction.j2" = true → vKeyN y ≤ vKeyN e) :=
  ⟨rfl,
   (render_template_latest_with_template dirC6 "p" [] (by decide) rfl (by decide)).2.1 "v1" rfl⟩

/-- C7: with version omitted, render_instruction resolves the base version
directory to the child with the maximum parsed integer suffix, independently
of listing order, and fails with NotFound when there are no version
directories at all. -/
theorem render_instruction_latest_selection (d : InstructionDir) (path : String)
    (hp : d.present = true)
    (hwf : ∀ e ∈ versionDirs d, (pyInt? (pyDropFirst e.name)).isSome = true)
    (hnd : (versionDirs d).Pairwise (fun a b => vKeyN a ≠ vKeyN b)) :
    (versionDirs d = [] →
      basePathEntry d path none = .error (.notFound ("No version directories found in " ++ path))) ∧
    (versionDirs d ≠ [] →
      ∃ m, m ∈ versionDirs d ∧
        basePathEntry d path none = .ok (m.name, some m.content) ∧
        ∀ y ∈ versionDirs d, vKeyN y ≤ vKeyN m) ∧
    (∀ d2 : InstructionDir, d2.present = true →
      List.Perm d2.entries d.entries →
      basePathEntry d2 path none = basePathEntry d path none) := by
  have hk : ∀ y ∈ versionDirs d, vKey y = .ok (vKeyN y) :=
    fun y hy => vKey_ok_of_isSome (hwf y hy)
  refine ⟨?_, ?_, ?_⟩
  · intro hnil
    simp [basePathEntry, hp, hnil]
  · intro hne
    obtain ⟨m, hm, hmem, hall⟩ := pyMaxBy_char hne hk
    exact ⟨m, hmem, by simp [basePathEntry, hp, isEmpty_false_of_ne_nil hne, hm], hall⟩
  · intro d2 hp2 hperm
    have hvperm : List.Perm (versionDirs d2) (versionDirs d) := by
      unfold versionDirs
      exact hperm.filter _
    by_cases hnil : versionDirs d = []
    · have hnil2 : versionDirs d2 = [] := by
        rw [hnil] at hvperm
        exact hvperm.eq_nil
      simp [basePathEntry, hp, hp2, hnil, hnil2]
    · have hnil2 : versionDirs d2 ≠ [] := by
        intro hcon
        rw [hcon] at hvperm
        exact hnil (hvperm.symm.eq_nil)
      have hk2 : ∀ y ∈ versionDirs d2, vKey y = .ok (vKeyN y) :=
        fun y hy => hk y (hvperm.subset hy)
      obtain ⟨m1, hm1, hmem1, hall1⟩ := pyMaxBy_char hnil hk
      obtain ⟨m2, hm2, hmem2, hall2⟩ := pyMaxBy_char hnil2 hk2
      have hkeq : vKeyN m2 = vKeyN m1 :=
        le_antisymm (hall1 m2 (hvperm.subset hmem2)) (hall2 m1 (hvperm.symm.subset hmem1))
      have hmeq : m2 = m1 := by
        by_contra hne2
        exact (List.Pairwise.forall (fun a b hab => Ne.symm hab) hnd
          (hvperm.subset hmem2) hmem1 hne2) hkeq
      have e1 : basePathEntry d path none = .ok (m1.name, some m1.content) := by
        simp [basePathEntry, hp, isEmpty_false_of_ne_nil hnil, hm1]
      have e2 : basePathEntry d2 path none = .ok (m2.name, some m2.content) := by
        simp [basePathEntry, hp2, isEmpty_false_of_ne_nil hnil2, hm2]
      rw [e1, e2, hmeq]

/-- Entries used by the C7 witness, deliberately listed out of numeric
order; v10 has the maximum integer suffix. -/
def entC7v2 : Entry := { name := "v2", isDir := true, content := { files := ["instruction.md"] } }

/-- Second entry of the C7 witness tree. -/
def entC7v10 : Entry := { name := "v10", isDir := true, content := { files := ["instruction.j2"] } }

/-- Third entry of the C7 witness tree. -/
def entC7v3 : Entry := { name := "v3", isDir := true, content := {} }

/-- Concrete tree for the C7 witness. -/
def dirC7 : InstructionDir :=
  { present := true, entries := [entC7v2, entC7v10, entC7v3] }

/-- The same tree with the first two children swapped in listing order. -/
def dirC7b : InstructionDir :=
  { present := true, entries := [entC7v10, entC7v2, entC7v3] }

/-- C7 witness: on a concrete tree the resolved base is the entry with the
maximum integer suffix, and resolving a permuted listing gives the same
result. -/
theorem render_instruction_latest_selection_witness :
    (∃ m, m ∈ versionDirs dirC7 ∧
      basePathEntry dirC7 "p" none = .ok (m.name, some m.content) ∧
      ∀ y ∈ versionDirs dirC7, vKeyN y ≤ vKeyN m) ∧
    basePathEntry dirC7b "p" none = basePathEntry dirC7 "p" none :=
  ⟨(render_instruction_latest_selection dirC7 "p" rfl (by decide) (by decide)).2.1
      (List.cons_ne_nil _ _),
   (render_instruction_latest_selection dirC7 "p" rfl (by decide) (by decide)).2.2 dirC7b rfl
      (List.Perm.swap entC7v2 entC7v10 [entC7v3])⟩

end InstructionRenderer
